import Mathlib

/-!
# Verification of the `TaskScheduler` of `automation/scheduler.py`

A shallow embedding of the recurring-task scheduler: its registry of tasks,
the timer handles it owns, and every public operation.  Python dictionaries
mutated in place are modelled as an association list from task id to task
record, updated with dictionary semantics (`setTask`); the callable stored on
a task is arbitrary external code, so a firing takes the action's outcome
(normal result or raised exception, already stringified) as a parameter, and
likewise the outcome of the notification sink, since the source wraps both in
one `try` block.  `time.time()` reads are passed in as explicit integer
instants.  Task ids (`uuid4` in the source) are modelled as a fresh-counter:
the registry never sees the same id twice, which the source guarantees by
uuid uniqueness.  Each operation, and each complete firing of `_run_task`, is
modelled as one atomic step; interleavings inside a single firing are outside
this model.
-/

deriving instance DecidableEq for Except

namespace TaskScheduler

/-- Payload type of a task action's successful result (opaque to the scheduler). -/
abbrev Value := Nat

/-- Outcome of executing a task's stored callable: a normal return value, or a
raised exception already carried as its `str(e)` form. -/
inductive ActionOutcome where
  | ok (v : Value)
  | err (msg : String)
deriving DecidableEq, Repr

/-- A `threading.Timer` handle as the scheduler observes it: the delay it was
constructed with, whether `start()` was called, whether `cancel()` was called,
and whether it has already expired and run its callback. -/
structure Timer where
  delay : Int
  started : Bool
  cancelled : Bool
  fired : Bool
deriving DecidableEq, Repr

/-- Python `Timer.is_alive()` on a task's timer slot: the timer thread was
started and has neither run its callback to completion nor been cancelled. -/
def timerAlive : Option Timer → Bool
  | none => false
  | some tm => tm.started && !tm.fired && !tm.cancelled

/-- Python `Timer.cancel()` on a task's timer slot (a no-op when the slot is
empty, matching the `if task.get("timer")` guards of the source). -/
def cancelTimer (tm : Option Timer) : Option Timer :=
  tm.map fun t => { t with cancelled := true }

/-- One task record, the dictionary built by `schedule_task`.  The stored
callable itself is external code and does not appear here; its behaviour per
firing enters through `ActionOutcome`. -/
structure Task where
  id : Nat
  interval : Int
  unit : String
  timer : Option Timer
  status : String
  last_run : Option Int
  next_run : Int
  last_result : Option Value
  last_error : Option String
  cancelled : Bool
deriving DecidableEq, Repr

/-- The notification configuration set by `configure_notifications`; the
`conditions` dict is opaque consumer data, kept as an uninterpreted string. -/
structure NotifConfig where
  recipient : String
  conditions : String
deriving DecidableEq, Repr

/-- The scheduler state: the task registry (a Python dict, modelled as an
association list in insertion order), the `running` flag, the notification
configuration, and the fresh-id counter standing in for `uuid4`. -/
structure Sched where
  tasks : List (Nat × Task)
  nextId : Nat
  running : Bool
  notification_config : Option NotifConfig
deriving DecidableEq, Repr

/-- The freshly constructed scheduler: empty registry, not running, no
notification configuration. -/
def initSched : Sched :=
  { tasks := [], nextId := 0, running := false, notification_config := none }

/-- Dictionary write `self.tasks[tid] = t`: replace the binding if the key is
present, append it otherwise. -/
def setTask : List (Nat × Task) → Nat → Task → List (Nat × Task)
  | [], tid, t => [(tid, t)]
  | (k, v) :: rest, tid, t =>
    if k = tid then (k, t) :: rest else (k, v) :: setTask rest tid t

/-- Python `str.lower()` restricted to the ASCII letters that can occur in a
unit name. -/
def pyLower (s : String) : String := ⟨s.data.map Char.toLower⟩

/-- The unit table of `_convert_to_seconds`, the Python dict
`seconds ↦ 1, minutes ↦ 60, hours ↦ 3600, days ↦ 86400`. -/
def allowed_units : List (String × Int) :=
  [("seconds", 1), ("minutes", 60), ("hours", 3600), ("days", 86400)]

/-- Method `_convert_to_seconds`: lowercase the unit, reject a unit outside
the table with a `ValueError` (message abridged), otherwise multiply.  Only
the unit is checked; the interval value itself is not validated. -/
def _convert_to_seconds (interval : Int) (unit : String) : Except String Int :=
  match allowed_units.lookup (pyLower unit) with
  | none => .error "Invalid unit for interval. Choose from: [seconds, minutes, hours, days]"
  | some m => .ok (interval * m)

/-- Method `_run_task`, one complete firing taken as an atomic step.  `t1` is
the `time.time()` read at the start of the `try` block, `t2` the one in the
reschedule block; `outcome` is what the task's callable did, and `notifyExc`
is `some e` when the notification sink raised `e` (the source's `_notify`
sits inside the same `try`, so its exception lands in the same `except`).
The firing silently aborts when the task is missing or cancelled; an action
exception is recorded on the task and never propagates (the function is total
and returns a state for every input). -/
def _run_task (s : Sched) (tid : Nat) (t1 t2 : Int)
    (outcome : ActionOutcome) (notifyExc : Option String) : Sched :=
  match s.tasks.lookup tid with
  | none => s
  | some task =>
    if task.cancelled then s
    else
      let task := { task with last_run := some t1 }
      let task :=
        match outcome with
        | .err e => { task with last_error := some e, status := "error" }
        | .ok v =>
          let task := { task with last_result := some v, status := "completed" }
          match s.notification_config, notifyExc with
          | some _, some e => { task with last_error := some e, status := "error" }
          | _, _ => task
      let task :=
        if s.running && !task.cancelled then
          { task with next_run := t2 + task.interval,
                      timer := some ⟨task.interval, true, false, false⟩ }
        else task
      { s with tasks := setTask s.tasks tid task }

/-- Method `schedule_task`: normalize the interval (raising on a bad unit
before any state is touched), mint a fresh id, build the task record with an
inert timer, register it, and start the timer only when the scheduler is
running. -/
def schedule_task (s : Sched) (now : Int) (interval : Int) (unit : String) :
    Except String (Sched × Nat) :=
  match _convert_to_seconds interval unit with
  | .error e => .error e
  | .ok seconds =>
    let tid := s.nextId
    let timer : Timer :=
      { delay := seconds, started := s.running, cancelled := false, fired := false }
    let task : Task :=
      { id := tid, interval := seconds, unit := unit, timer := some timer,
        status := "scheduled", last_run := none, next_run := now + seconds,
        last_result := none, last_error := none, cancelled := false }
    .ok ({ s with tasks := setTask s.tasks tid task, nextId := tid + 1 }, tid)

/-- Method `cancel_task`: on an existing task set `cancelled`, cancel the
pending timer if any, and set `status = cancelled`; a silent no-op on an
unknown id. -/
def cancel_task (s : Sched) (tid : Nat) : Sched :=
  match s.tasks.lookup tid with
  | none => s
  | some task =>
    let task := { task with cancelled := true, timer := cancelTimer task.timer,
                            status := "cancelled" }
    { s with tasks := setTask s.tasks tid task }

/-- Method `update_task`: normalize the new interval first (raising on a bad
unit with the registry untouched); on an existing task cancel the old timer,
store the new interval, unit and `next_run`, and start a fresh timer
unconditionally — neither the `running` flag nor the task's `cancelled` flag
is consulted. -/
def update_task (s : Sched) (tid : Nat) (now : Int) (new_interval : Int)
    (unit : String) : Except String Sched :=
  match _convert_to_seconds new_interval unit with
  | .error e => .error e
  | .ok seconds =>
    match s.tasks.lookup tid with
    | none => .ok s
    | some task =>
      let task := { task with interval := seconds, unit := unit,
                              next_run := now + seconds,
                              timer := some (⟨seconds, true, false, false⟩ : Timer) }
      .ok { s with tasks := setTask s.tasks tid task }

/-- Method `run_now`: on an existing non-cancelled task cancel the pending
timer and spawn `_run_task` on a separate thread, returning to the caller at
once.  The returned Boolean records whether a firing was spawned; the spawned
firing itself is the separate atomic step `_run_task`. -/
def run_now (s : Sched) (tid : Nat) : Sched × Bool :=
  match s.tasks.lookup tid with
  | none => (s, false)
  | some task =>
    if task.cancelled then (s, false)
    else
      let task := { task with timer := cancelTimer task.timer }
      ({ s with tasks := setTask s.tasks tid task }, true)

/-- References returned to callers: the source hands out the internal task
dictionary itself (not a copy), and every task dictionary is created exactly
once and only ever mutated in place, so object identity coincides with the
task id. -/
abbrev TaskRef := Nat

/-- Reading through a returned reference: the record the reference denotes in
the given (current) scheduler state. -/
def deref (s : Sched) (r : TaskRef) : Option Task := s.tasks.lookup r

/-- Method `get_task_status`: returns the task's own mutable record — under
the identity-as-id convention, a reference — or `None` when the id is
unknown. -/
def get_task_status (s : Sched) (tid : Nat) : Option TaskRef :=
  match s.tasks.lookup tid with
  | none => none
  | some _ => some tid

/-- Method `list_scheduled_tasks`: `list(self.tasks.values())` — a fresh list
whose elements are the live task records (references), in insertion order. -/
def list_scheduled_tasks (s : Sched) : List TaskRef :=
  s.tasks.map Prod.fst

/-- Copy-on-read variant of `get_task_status`, written from the spec's words
(return defensive copies of at least the mutable fields) for comparison with
the reference-returning source semantics. -/
def get_task_status_snapshot (s : Sched) (tid : Nat) : Option Task :=
  s.tasks.lookup tid

/-- Method `configure_notifications`: replace the process-wide notification
configuration. -/
def configure_notifications (s : Sched) (recipient : String)
    (conditions : String) : Sched :=
  { s with notification_config := some { recipient := recipient, conditions := conditions } }

/-- Helper of `start_scheduler` for one task: arm a timer for the remaining
time until `next_run` when the task is not cancelled and its timer is not
alive. -/
def startTask (now : Int) (t : Task) : Task :=
  if !t.cancelled && !timerAlive t.timer then
    { t with timer := some ⟨max 0 (t.next_run - now), true, false, false⟩ }
  else t

/-- Method `start_scheduler`: idempotent; when not yet running, set `running`
and arm a timer for every non-cancelled task without a live timer, using the
remaining time until its `next_run`. -/
def start_scheduler (s : Sched) (now : Int) : Sched :=
  if s.running then s
  else
    { s with running := true,
             tasks := s.tasks.map fun p => (p.1, startTask now p.2) }

/-- Helper of `stop_scheduler` for one task: cancel its timer slot. -/
def stopTask (t : Task) : Task :=
  { t with timer := cancelTimer t.timer }

/-- Method `stop_scheduler`: clear `running` and cancel every task's pending
timer; tasks are not marked cancelled. -/
def stop_scheduler (s : Sched) : Sched :=
  { s with running := false,
           tasks := s.tasks.map fun p => (p.1, stopTask p.2) }

/-- Expiry of the timer currently held by a task: mark it fired. -/
def fireTimer (s : Sched) (tid : Nat) : Sched :=
  match s.tasks.lookup tid with
  | none => s
  | some task =>
    let task := { task with timer := task.timer.map fun tm => { tm with fired := true } }
    { s with tasks := setTask s.tasks tid task }

/-- A timer expiry event: only a live timer can expire; it marks itself fired
and invokes `_run_task`, which re-checks existence and cancellation itself. -/
def timerExpiry (s : Sched) (tid : Nat) (t1 t2 : Int)
    (outcome : ActionOutcome) (notifyExc : Option String) : Sched :=
  match s.tasks.lookup tid with
  | none => s
  | some task =>
    if timerAlive task.timer then
      _run_task (fireTimer s tid) tid t1 t2 outcome notifyExc
    else s

/-- The alphabet of scheduler events: every public operation plus the two
ways a firing can be triggered (timer expiry, and the thread spawned by
`run_now`, folded into its `opRunNow` step). -/
inductive Op where
  | opSchedule (now interval : Int) (unit : String)
  | opCancel (tid : Nat)
  | opUpdate (tid : Nat) (now interval : Int) (unit : String)
  | opRunNow (tid : Nat) (t1 t2 : Int) (outcome : ActionOutcome) (nex : Option String)
  | opFire (tid : Nat) (t1 t2 : Int) (outcome : ActionOutcome) (nex : Option String)
  | opStart (now : Int)
  | opStop
  | opConfigure (recipient conditions : String)
deriving DecidableEq, Repr

/-- Apply one event to the scheduler state.  A synchronous `ValueError`
(`opSchedule` / `opUpdate` with a bad unit) propagates to the caller and
leaves the state unchanged. -/
def applyOp (s : Sched) : Op → Sched
  | .opSchedule now i u =>
    match schedule_task s now i u with
    | .ok p => p.1
    | .error _ => s
  | .opCancel tid => cancel_task s tid
  | .opUpdate tid now i u =>
    match update_task s tid now i u with
    | .ok s' => s'
    | .error _ => s
  | .opRunNow tid t1 t2 oc nex =>
    let p := run_now s tid
    if p.2 then _run_task p.1 tid t1 t2 oc nex else p.1
  | .opFire tid t1 t2 oc nex => timerExpiry s tid t1 t2 oc nex
  | .opStart now => start_scheduler s now
  | .opStop => stop_scheduler s
  | .opConfigure r c => configure_notifications s r c

/-- Apply a sequence of events in order. -/
def applyOps (s : Sched) (ops : List Op) : Sched := ops.foldl applyOp s

/-- The guard of `_run_task`: invoking a firing of `tid` in state `s` would
actually execute the task's stored callable. -/
def firesAction (s : Sched) (tid : Nat) : Bool :=
  match s.tasks.lookup tid with
  | none => false
  | some t => !t.cancelled

/-- Whether applying the event `op` in state `s` executes the action of task
`tid`: a timer expiry needs a live timer and a passing `_run_task` guard, a
`run_now` needs its own guard (which coincides with the firing guard). -/
def opFires (s : Sched) (op : Op) (tid : Nat) : Bool :=
  match op with
  | .opFire tid' _ _ _ _ =>
    tid' == tid &&
      (match s.tasks.lookup tid' with
       | none => false
       | some t => timerAlive t.timer && !t.cancelled)
  | .opRunNow tid' _ _ _ _ => tid' == tid && firesAction s tid'
  | _ => false

/-- No event of the sequence, applied from `s` onward, executes the action of
task `tid`. -/
def noFire (s : Sched) (tid : Nat) : List Op → Bool
  | [] => true
  | op :: rest => !opFires s op tid && noFire (applyOp s op) tid rest

/-- Task `tid` is registered, flagged cancelled, with status `cancelled`. -/
def cancelledState (s : Sched) (tid : Nat) : Bool :=
  match s.tasks.lookup tid with
  | none => false
  | some t => t.cancelled && t.status == "cancelled"

/-- Well-formedness of the fresh-id counter: every registered id is below
`nextId` (the model's rendering of uuid freshness). -/
def freshOk (s : Sched) : Bool :=
  s.tasks.all fun p => p.1 < s.nextId

end TaskScheduler

/-! ## Registry lemmas -/

namespace TaskScheduler

theorem lookup_nil {α : Type} {β : Type} [BEq α] (j : α) :
    List.lookup j ([] : List (α × β)) = none := rfl

theorem lookup_cons_self {α : Type} {β : Type} [BEq α] [LawfulBEq α]
    (k : α) (v : β) (rest : List (α × β)) :
    List.lookup k ((k, v) :: rest) = some v := by
  simp [List.lookup]

theorem lookup_cons_ne {α : Type} {β : Type} [BEq α] [LawfulBEq α]
    {j k : α} (h : j ≠ k) (v : β) (rest : List (α × β)) :
    List.lookup j ((k, v) :: rest) = List.lookup j rest := by
  have hb : (j == k) = false := beq_eq_false_iff_ne.mpr h
  simp [List.lookup, hb]

theorem lookup_setTask (ts : List (Nat × Task)) (k j : Nat) (v : Task) :
    (setTask ts k v).lookup j = if j = k then some v else ts.lookup j := by
  induction ts with
  | nil =>
    by_cases h : j = k
    · subst h; simp [setTask, lookup_cons_self]
    · simp [setTask, lookup_cons_ne h, lookup_nil, h]
  | cons p rest ih =>
    obtain ⟨pk, pv⟩ := p
    by_cases hpk : pk = k
    · subst hpk
      by_cases hj : j = pk
      · subst hj; simp [setTask, lookup_cons_self]
      · simp [setTask, lookup_cons_ne hj, hj]
    · by_cases hj : j = pk
      · subst hj
        simp [setTask, hpk, lookup_cons_self, Ne.symm hpk]
      · simp [setTask, hpk, lookup_cons_ne hj, ih]

theorem setTask_setTask (ts : List (Nat × Task)) (k : Nat) (v w : Task) :
    setTask (setTask ts k v) k w = setTask ts k w := by
  induction ts with
  | nil => simp [setTask]
  | cons p rest ih =>
    obtain ⟨pk, pv⟩ := p
    by_cases hpk : pk = k <;> simp [setTask, hpk, ih]

theorem mem_setTask {ts : List (Nat × Task)} {k : Nat} {v : Task} {p : Nat × Task}
    (h : p ∈ setTask ts k v) : p ∈ ts ∨ p.1 = k := by
  induction ts with
  | nil =>
    simp [setTask] at h
    right; rw [h]
  | cons q rest ih =>
    obtain ⟨qk, qv⟩ := q
    by_cases hqk : qk = k
    · subst hqk
      simp [setTask] at h
      rcases h with h | h
      · right; rw [h]
      · left; simp [h]
    · simp [setTask, hqk] at h
      rcases h with h | h
      · left; simp [h]
      · rcases ih h with h' | h'
        · left; simp [h']
        · right; exact h'

theorem mem_of_lookup_eq_some {ts : List (Nat × Task)} {k : Nat} {v : Task}
    (h : ts.lookup k = some v) : (k, v) ∈ ts := by
  induction ts with
  | nil => simp [List.lookup] at h
  | cons q rest ih =>
    obtain ⟨qk, qv⟩ := q
    by_cases hk : k = qk
    · subst hk
      rw [lookup_cons_self] at h
      simp at h
      simp [h]
    · rw [lookup_cons_ne hk] at h
      simp [ih h]

theorem lookup_mapSnd (f : Task → Task) (ts : List (Nat × Task)) (j : Nat) :
    (ts.map fun p => (p.1, f p.2)).lookup j = (ts.lookup j).map f := by
  induction ts with
  | nil => simp [List.lookup]
  | cons q rest ih =>
    obtain ⟨qk, qv⟩ := q
    by_cases hk : j = qk
    · subst hk
      simp [lookup_cons_self]
    · simp [lookup_cons_ne hk, ih]

theorem cancelTimer_idem (tm : Option Timer) :
    cancelTimer (cancelTimer tm) = cancelTimer tm := by
  cases tm with
  | none => rfl
  | some t => rfl

end TaskScheduler

/-! ## Unit-table lemmas -/

namespace TaskScheduler

theorem lookup_allowed_units_eq_none (u : String)
    (h1 : u ≠ "seconds") (h2 : u ≠ "minutes") (h3 : u ≠ "hours") (h4 : u ≠ "days") :
    allowed_units.lookup u = none := by
  unfold allowed_units
  rw [lookup_cons_ne h1, lookup_cons_ne h2, lookup_cons_ne h3, lookup_cons_ne h4]
  exact lookup_nil u

theorem allowed_units_pos (u : String) (m : Int)
    (h : allowed_units.lookup u = some m) : 0 < m := by
  by_cases h1 : u = "seconds"
  · subst h1
    rw [show allowed_units.lookup "seconds" = some 1 from rfl] at h
    simp at h; omega
  by_cases h2 : u = "minutes"
  · subst h2
    rw [show allowed_units.lookup "minutes" = some 60 from rfl] at h
    simp at h; omega
  by_cases h3 : u = "hours"
  · subst h3
    rw [show allowed_units.lookup "hours" = some 3600 from rfl] at h
    simp at h; omega
  by_cases h4 : u = "days"
  · subst h4
    rw [show allowed_units.lookup "days" = some 86400 from rfl] at h
    simp at h; omega
  rw [lookup_allowed_units_eq_none u h1 h2 h3 h4] at h
  simp at h

theorem convert_ok_of_lookup (i : Int) (u : String) (m : Int)
    (h : allowed_units.lookup (pyLower u) = some m) :
    _convert_to_seconds i u = .ok (i * m) := by
  simp [_convert_to_seconds, h]

theorem convert_error_of_lookup (i : Int) (u : String)
    (h : allowed_units.lookup (pyLower u) = none) :
    _convert_to_seconds i u =
      .error "Invalid unit for interval. Choose from: [seconds, minutes, hours, days]" := by
  simp [_convert_to_seconds, h]

end TaskScheduler

/-! ## Shared concrete states for witnesses -/

namespace TaskScheduler

/-- A concrete running scheduler holding one freshly scheduled task: start the
scheduler at instant 0, then schedule a task with interval 3600 seconds. -/
def sampleSched : Sched :=
  ((schedule_task (start_scheduler initSched 0) 0 3600 "seconds").toOption.map
    Prod.fst).getD initSched

/-- The record of the one task of `sampleSched` (id 0). -/
def sampleTask : Task :=
  { id := 0, interval := 3600, unit := "seconds",
    timer := some ⟨3600, true, false, false⟩, status := "scheduled",
    last_run := none, next_run := 3600, last_result := none, last_error := none,
    cancelled := false }

/-- The sample scheduler with a notification configuration installed. -/
def sampleNotif : Sched := configure_notifications sampleSched "ops" "always"

end TaskScheduler

/-! ## The claims -/

namespace TaskScheduler

/-- C1: a firing whose action raises records the stringified exception in
`last_error` and sets `status = "error"`; the exception never propagates (the
firing `_run_task` is a total function into scheduler states); and when the
scheduler is running and the task not cancelled, a fresh live timer for one
full interval is armed with `next_run` moved past it, so the failure does not
stop future firings. -/
theorem failing_action_is_recorded_and_rescheduled
    (s : Sched) (tid : Nat) (t : Task) (t1 t2 : Int) (e : String)
    (nex : Option String)
    (hl : s.tasks.lookup tid = some t) (hc : t.cancelled = false)
    (hr : s.running = true) :
    ∃ t', (_run_task s tid t1 t2 (.err e) nex).tasks.lookup tid = some t' ∧
      t'.last_error = some e ∧ t'.status = "error" ∧ t'.cancelled = false ∧
      t'.timer = some ⟨t.interval, true, false, false⟩ ∧
      t'.next_run = t2 + t.interval := by
  unfold _run_task
  rw [hl]
  simp [hc, hr, lookup_setTask]

/-- Witness for C1 at a concrete input: the sample task, action raising
`boom`. -/
theorem failing_action_is_recorded_and_rescheduled_witness :
    sampleSched.tasks.lookup 0 = some sampleTask ∧
    sampleTask.cancelled = false ∧ sampleSched.running = true ∧
    (∃ t', (_run_task sampleSched 0 10 10 (.err "boom") none).tasks.lookup 0 = some t' ∧
      t'.last_error = some "boom" ∧ t'.status = "error" ∧ t'.cancelled = false ∧
      t'.timer = some ⟨sampleTask.interval, true, false, false⟩ ∧
      t'.next_run = 10 + sampleTask.interval) :=
  ⟨by decide, by decide, by decide,
    failing_action_is_recorded_and_rescheduled sampleSched 0 sampleTask 10 10
      "boom" none (by decide) (by decide) (by decide)⟩

end TaskScheduler

namespace TaskScheduler

/-- C2: a `schedule_task` or `update_task` call whose unit, lowercased, is
none of `seconds`, `minutes`, `hours`, `days` raises a `ValueError`
synchronously to the caller, and the scheduler state is left completely
unchanged: no task is created and the existing task keeps every field. -/
theorem invalid_unit_raises_and_leaves_state_unchanged
    (s : Sched) (now i : Int) (tid : Nat) (unit : String)
    (h1 : pyLower unit ≠ "seconds") (h2 : pyLower unit ≠ "minutes")
    (h3 : pyLower unit ≠ "hours") (h4 : pyLower unit ≠ "days") :
    (∃ msg, schedule_task s now i unit = .error msg) ∧
    (∃ msg, update_task s tid now i unit = .error msg) ∧
    applyOp s (.opSchedule now i unit) = s ∧
    applyOp s (.opUpdate tid now i unit) = s := by
  have hn : allowed_units.lookup (pyLower unit) = none :=
    lookup_allowed_units_eq_none _ h1 h2 h3 h4
  have he := convert_error_of_lookup i unit hn
  refine ⟨⟨"Invalid unit for interval. Choose from: [seconds, minutes, hours, days]", ?_⟩,
    ⟨"Invalid unit for interval. Choose from: [seconds, minutes, hours, days]", ?_⟩, ?_, ?_⟩
  · unfold schedule_task
    rw [he]
  · unfold update_task
    rw [he]
  · have hs : schedule_task s now i unit =
        .error "Invalid unit for interval. Choose from: [seconds, minutes, hours, days]" := by
      unfold schedule_task
      rw [he]
    simp [applyOp, hs]
  · have hu : update_task s tid now i unit =
        .error "Invalid unit for interval. Choose from: [seconds, minutes, hours, days]" := by
      unfold update_task
      rw [he]
    simp [applyOp, hu]

/-- Witness for C2 at a concrete input: unit `weeks` on the sample scheduler. -/
theorem invalid_unit_raises_and_leaves_state_unchanged_witness :
    pyLower "weeks" ≠ "seconds" ∧ pyLower "weeks" ≠ "minutes" ∧
    pyLower "weeks" ≠ "hours" ∧ pyLower "weeks" ≠ "days" ∧
    ((∃ msg, schedule_task sampleSched 7 5 "weeks" = .error msg) ∧
     (∃ msg, update_task sampleSched 0 7 5 "weeks" = .error msg) ∧
     applyOp sampleSched (.opSchedule 7 5 "weeks") = sampleSched ∧
     applyOp sampleSched (.opUpdate 0 7 5 "weeks") = sampleSched) :=
  ⟨by decide, by decide, by decide, by decide,
    invalid_unit_raises_and_leaves_state_unchanged sampleSched 7 5 0 "weeks"
      (by decide) (by decide) (by decide) (by decide)⟩

end TaskScheduler

namespace TaskScheduler

/-- C10: when a notification configuration is set and the notification sink
raises during a firing whose action succeeded, the firing ends as a failure:
`status = "error"` with `last_error` the sink's stringified exception — while
`last_result` keeps the value the action already stored in the same firing. -/
theorem sink_failure_overrides_successful_firing
    (s : Sched) (tid : Nat) (t : Task) (cfg : NotifConfig) (t1 t2 : Int)
    (v : Value) (e : String)
    (hl : s.tasks.lookup tid = some t) (hc : t.cancelled = false)
    (hn : s.notification_config = some cfg) :
    ∃ t', (_run_task s tid t1 t2 (.ok v) (some e)).tasks.lookup tid = some t' ∧
      t'.status = "error" ∧ t'.last_error = some e ∧ t'.last_result = some v := by
  unfold _run_task
  rw [hl, hn]
  simp [hc, lookup_setTask]
  by_cases hr : s.running <;> simp [hr]

/-- Witness for C10 at a concrete input: the configured sample scheduler, the
action returning `7`, the sink raising `sinkfail`. -/
theorem sink_failure_overrides_successful_firing_witness :
    sampleNotif.tasks.lookup 0 = some sampleTask ∧
    sampleTask.cancelled = false ∧
    sampleNotif.notification_config = some ⟨"ops", "always"⟩ ∧
    (∃ t', (_run_task sampleNotif 0 5 5 (.ok 7) (some "sinkfail")).tasks.lookup 0 = some t' ∧
      t'.status = "error" ∧ t'.last_error = some "sinkfail" ∧ t'.last_result = some 7) :=
  ⟨by decide, by decide, by decide,
    sink_failure_overrides_successful_firing sampleNotif 0 sampleTask
      ⟨"ops", "always"⟩ 5 5 7 "sinkfail" (by decide) (by decide) (by decide)⟩

/-- C8 counterexample: a single firing of the configured sample scheduler in
which the action succeeds with `7` and the notification sink raises
`sinkfail` writes BOTH `last_result` and `last_error` (both were `none`
before the firing), so it is not the case that exactly one of the two fields
is written per firing. -/
theorem last_result_last_error_both_written_counterexample :
    (deref sampleNotif 0).map Task.last_result = some none ∧
    (deref sampleNotif 0).map Task.last_error = some none ∧
    (deref (_run_task sampleNotif 0 5 5 (.ok 7) (some "sinkfail")) 0).map
        (fun t => (t.last_result, t.last_error, t.status)) =
      some (some 7, some "sinkfail", "error") := by
  refine ⟨by decide, by decide, by decide⟩

/-- C8 amended: in a firing in which the notification sink does not come into
play (no configuration set, or the sink does not raise), exactly one of
`last_result` / `last_error` is written: an action success writes
`last_result` and leaves `last_error` untouched, an action failure writes
`last_error` and leaves `last_result` untouched; for a task with both fields
still empty this means exactly one of the two is set after the firing.  When
the action succeeds and the configured sink raises, both are written in the
same firing (see the counterexample). -/
theorem exactly_one_of_result_error_written_when_sink_ok
    (s : Sched) (tid : Nat) (t : Task) (t1 t2 : Int)
    (oc : ActionOutcome) (nex : Option String)
    (hl : s.tasks.lookup tid = some t) (hc : t.cancelled = false)
    (hsink : s.notification_config = none ∨ nex = none) :
    ∃ t', (_run_task s tid t1 t2 oc nex).tasks.lookup tid = some t' ∧
      ((∃ v, oc = .ok v ∧ t'.last_result = some v ∧ t'.last_error = t.last_error) ∨
       (∃ e, oc = .err e ∧ t'.last_error = some e ∧ t'.last_result = t.last_result)) := by
  unfold _run_task
  rw [hl]
  cases oc with
  | ok v =>
    rcases hsink with hs | hs
    · rw [hs]
      simp [hc, lookup_setTask]
      by_cases hr : s.running <;> simp [hr]
    · rw [hs]
      simp [hc, lookup_setTask]
      cases s.notification_config <;>
        by_cases hr : s.running <;> simp [hr]
  | err e =>
    simp [hc, lookup_setTask]
    by_cases hr : s.running <;> simp [hr]

/-- Witness for the amended C8 at a concrete input: the sample scheduler with
no notification configuration, action succeeding with `3`. -/
theorem exactly_one_of_result_error_written_when_sink_ok_witness :
    sampleSched.tasks.lookup 0 = some sampleTask ∧
    sampleTask.cancelled = false ∧
    (sampleSched.notification_config = none ∨ (none : Option String) = none) ∧
    (∃ t', (_run_task sampleSched 0 4 4 (.ok 3) none).tasks.lookup 0 = some t' ∧
      ((∃ v, (ActionOutcome.ok 3) = .ok v ∧ t'.last_result = some v ∧
          t'.last_error = sampleTask.last_error) ∨
       (∃ e, (ActionOutcome.ok 3) = .err e ∧ t'.last_error = some e ∧
          t'.last_result = sampleTask.last_result))) :=
  ⟨by decide, by decide, Or.inl (by decide),
    exactly_one_of_result_error_written_when_sink_ok sampleSched 0 sampleTask
      4 4 (.ok 3) none (by decide) (by decide) (Or.inl (by decide))⟩

/-- C7: `cancel_task` is idempotent on the scheduler state: a second call on
the same id raises nothing (the function is total) and produces exactly the
state of the first call — the timer stays cancelled, `cancelled` stays true,
`status` stays `cancelled`, with no further change.  This holds for every id,
existing or not. -/
theorem cancel_task_idempotent (s : Sched) (tid : Nat) :
    cancel_task (cancel_task s tid) tid = cancel_task s tid := by
  unfold cancel_task
  cases hl : s.tasks.lookup tid with
  | none => simp [hl]
  | some t =>
    simp only [hl]
    rw [lookup_setTask]
    simp [setTask_setTask, cancelTimer_idem]

end TaskScheduler

namespace TaskScheduler

/-- C4 counterexample: normalization rejects no interval value: on the fresh
scheduler, `schedule_task` with interval `0` (and likewise with `-5`) and
unit `seconds` succeeds and stores a task whose `interval` is `0` (resp.
`-5`), and on the sample scheduler `update_task` with interval `0` (and
`-5`) succeeds and stores `0` (resp. `-5`) on the existing task — so it is
false that every task ever present in the registry has
`interval_seconds > 0`. -/
theorem zero_interval_accepted_counterexample :
    ((schedule_task initSched 0 0 "seconds").toOption.map
      fun p => (p.1.tasks.lookup p.2).map Task.interval) = some (some 0) ∧
    ((schedule_task initSched 0 (-5) "seconds").toOption.map
      fun p => (p.1.tasks.lookup p.2).map Task.interval) = some (some (-5)) ∧
    ((update_task sampleSched 0 50 0 "seconds").toOption.map
      fun s' => (s'.tasks.lookup 0).map Task.interval) = some (some 0) ∧
    ((update_task sampleSched 0 50 (-5) "seconds").toOption.map
      fun s' => (s'.tasks.lookup 0).map Task.interval) = some (some (-5)) := by
  refine ⟨by decide, by decide, by decide, by decide⟩

/-- C4 amended: normalization at `schedule_task` / `update_task` time
validates only the unit, never the interval value: with a valid unit both
operations accept any integer interval — zero and negative included, see the
counterexample — and store `interval_seconds` equal to the requested interval
times the unit multiplier, which is therefore strictly positive exactly when
the requested interval is strictly positive. -/
theorem interval_seconds_positive_iff_request_positive
    (s : Sched) (tid : Nat) (t : Task) (now i : Int) (u : String) (m : Int)
    (hm : allowed_units.lookup (pyLower u) = some m)
    (hl : s.tasks.lookup tid = some t) :
    (∃ s' tid' t', schedule_task s now i u = .ok (s', tid') ∧
      s'.tasks.lookup tid' = some t' ∧ t'.interval = i * m ∧
      (0 < t'.interval ↔ 0 < i)) ∧
    (∃ s' t', update_task s tid now i u = .ok s' ∧
      s'.tasks.lookup tid = some t' ∧ t'.interval = i * m ∧
      (0 < t'.interval ↔ 0 < i)) := by
  have hc := convert_ok_of_lookup i u m hm
  have hmpos := allowed_units_pos _ m hm
  have hbi : 0 < i * m ↔ 0 < i := by
    constructor
    · intro h
      by_contra hni
      push_neg at hni
      exact absurd h (not_lt.mpr (mul_nonpos_iff.mpr (Or.inr ⟨hni, hmpos.le⟩)))
    · intro h
      exact mul_pos h hmpos
  constructor
  · set tNew : Task :=
      { id := s.nextId, interval := i * m, unit := u,
        timer := some ⟨i * m, s.running, false, false⟩, status := "scheduled",
        last_run := none, next_run := now + i * m, last_result := none,
        last_error := none, cancelled := false } with htNew
    have hsch : schedule_task s now i u =
        .ok ({ s with tasks := setTask s.tasks s.nextId tNew,
                      nextId := s.nextId + 1 }, s.nextId) := by
      unfold schedule_task
      rw [hc]
    refine ⟨_, s.nextId, tNew, hsch, ?_, rfl, hbi⟩
    rw [lookup_setTask]
    simp
  · have hupd : update_task s tid now i u = .ok { s with tasks := setTask s.tasks tid { t with interval := i * m, unit := u, next_run := now + i * m, timer := some ⟨i * m, true, false, false⟩ } } := by
      unfold update_task
      rw [hc, hl]
    refine ⟨_, { t with interval := i * m, unit := u, next_run := now + i * m, timer := some ⟨i * m, true, false, false⟩ }, hupd, ?_, rfl, hbi⟩
    rw [lookup_setTask]
    simp

/-- Witness for the amended C4 at a concrete input: interval `-3`, unit
`minutes`, on the sample scheduler's existing task — stored as `-180` by both
operations, positive on neither side of the biconditional. -/
theorem interval_seconds_positive_iff_request_positive_witness :
    allowed_units.lookup (pyLower "minutes") = some 60 ∧
    sampleSched.tasks.lookup 0 = some sampleTask ∧
    ((∃ s' tid' t', schedule_task sampleSched 7 (-3) "minutes" = .ok (s', tid') ∧
       s'.tasks.lookup tid' = some t' ∧ t'.interval = -3 * 60 ∧
       (0 < t'.interval ↔ (0 : Int) < -3)) ∧
     (∃ s' t', update_task sampleSched 0 7 (-3) "minutes" = .ok s' ∧
       s'.tasks.lookup 0 = some t' ∧ t'.interval = -3 * 60 ∧
       (0 < t'.interval ↔ (0 : Int) < -3))) :=
  ⟨by decide, by decide,
    interval_seconds_positive_iff_request_positive sampleSched 0 sampleTask 7
      (-3) "minutes" 60 (by decide) (by decide)⟩

/-- C3 counterexample: on the running sample scheduler (one task, interval
3600, `next_run = 3600`), `run_now` at instant 10 spawns a firing, and after
that firing completes at instant 10 the task's `next_run` is `3610`, not the
original baseline `3600`: the manual trigger does reset the period target. -/
theorem run_now_resets_next_run_counterexample :
    (run_now sampleSched 0).2 = true ∧
    (deref sampleSched 0).map Task.next_run = some 3600 ∧
    (deref (_run_task (run_now sampleSched 0).1 0 10 10 (.ok 1) none) 0).map
      Task.next_run = some 3610 := by
  refine ⟨by decide, by decide, by decide⟩

/-- C3 amended: on an existing non-cancelled task, `run_now` cancels the
pending timer and spawns one firing on a separate thread, returning to the
caller at once, so the action runs without waiting for the interval; but the
schedule does not continue from the original `next_run` baseline: when the
scheduler is running, the firing re-arms from its own completion time,
setting `next_run` to completion time plus interval and starting a fresh
full-interval timer. -/
theorem run_now_fires_immediately_and_rearms_from_completion
    (s : Sched) (tid : Nat) (t : Task) (t1 t2 : Int) (oc : ActionOutcome)
    (nex : Option String)
    (hl : s.tasks.lookup tid = some t) (hc : t.cancelled = false)
    (hr : s.running = true) :
    (run_now s tid).2 = true ∧
    (run_now s tid).1.tasks.lookup tid = some { t with timer := cancelTimer t.timer } ∧
    ∃ t', (_run_task (run_now s tid).1 tid t1 t2 oc nex).tasks.lookup tid = some t' ∧
      t'.last_run = some t1 ∧ t'.next_run = t2 + t.interval ∧
      t'.timer = some ⟨t.interval, true, false, false⟩ := by
  have h1 : run_now s tid =
      ({ s with tasks := setTask s.tasks tid { t with timer := cancelTimer t.timer } }, true) := by
    unfold run_now
    rw [hl]
    simp [hc]
  refine ⟨by rw [h1], ?_, ?_⟩
  · rw [h1, lookup_setTask]
    simp
  · rw [h1]
    unfold _run_task
    rw [lookup_setTask]
    simp only [if_pos rfl]
    cases oc with
    | ok v =>
      simp [hc, hr, lookup_setTask, setTask_setTask]
      cases s.notification_config <;> cases nex <;> simp
    | err e =>
      simp [hc, hr, lookup_setTask, setTask_setTask]

/-- Witness for the amended C3 at a concrete input: the sample task fired via
`run_now` at instant 10. -/
theorem run_now_fires_immediately_and_rearms_from_completion_witness :
    sampleSched.tasks.lookup 0 = some sampleTask ∧
    sampleTask.cancelled = false ∧ sampleSched.running = true ∧
    ((run_now sampleSched 0).2 = true ∧
     (run_now sampleSched 0).1.tasks.lookup 0 =
       some { sampleTask with timer := cancelTimer sampleTask.timer } ∧
     ∃ t', (_run_task (run_now sampleSched 0).1 0 10 10 (.ok 1) none).tasks.lookup 0 = some t' ∧
       t'.last_run = some 10 ∧ t'.next_run = 10 + sampleTask.interval ∧
       t'.timer = some ⟨sampleTask.interval, true, false, false⟩) :=
  ⟨by decide, by decide, by decide,
    run_now_fires_immediately_and_rearms_from_completion sampleSched 0 sampleTask
      10 10 (.ok 1) none (by decide) (by decide) (by decide)⟩

end TaskScheduler

namespace TaskScheduler

/-- C6 counterexample: `get_task_status` on the sample scheduler returns the
task's live record (a reference, here reference `0`); reading through that
same returned reference before a firing shows status `scheduled` and after
the firing shows status `completed` — the later mutation IS observable
through the previously returned value, so the returned values are not
defensive snapshots. -/
theorem returned_record_observes_later_mutation_counterexample :
    get_task_status sampleSched 0 = some 0 ∧
    list_scheduled_tasks sampleSched = [0] ∧
    (deref sampleSched 0).map Task.status = some "scheduled" ∧
    (deref (_run_task sampleSched 0 10 10 (.ok 1) none) 0).map Task.status =
      some "completed" := by
  refine ⟨by decide, by decide, by decide, by decide⟩

/-- C6 amended: `get_task_status` and `list_scheduled_tasks` hand out live
references to the internal task records, not defensive copies: the list
itself is fresh, but reading through a returned reference in any later state
yields that state's current record, so every subsequent mutation of the
internal record is observable through the previously returned value.  The
returned reference agrees with copy-on-read semantics only at the moment of
the call. -/
theorem returned_values_are_live_references
    (s s' : Sched) (tid : Nat) (r : TaskRef)
    (h : get_task_status s tid = some r) :
    r = tid ∧ r ∈ list_scheduled_tasks s ∧
    deref s' r = s'.tasks.lookup tid ∧
    deref s r = get_task_status_snapshot s tid := by
  unfold get_task_status at h
  cases hl : s.tasks.lookup tid with
  | none => rw [hl] at h; exact absurd h (by simp)
  | some t =>
    rw [hl] at h
    simp at h
    subst h
    refine ⟨rfl, ?_, rfl, rfl⟩
    have := mem_of_lookup_eq_some hl
    unfold list_scheduled_tasks
    exact List.mem_map.mpr ⟨(tid, t), this, rfl⟩

/-- Witness for the amended C6 at a concrete input: the reference returned on
the sample scheduler, read again after a firing. -/
theorem returned_values_are_live_references_witness :
    get_task_status sampleSched 0 = some 0 ∧
    ((0 : TaskRef) = 0 ∧ (0 : TaskRef) ∈ list_scheduled_tasks sampleSched ∧
     deref (_run_task sampleSched 0 10 10 (.ok 1) none) 0 =
       (_run_task sampleSched 0 10 10 (.ok 1) none).tasks.lookup 0 ∧
     deref sampleSched 0 = get_task_status_snapshot sampleSched 0) :=
  ⟨by decide,
    returned_values_are_live_references sampleSched
      (_run_task sampleSched 0 10 10 (.ok 1) none) 0 0 (by decide)⟩

end TaskScheduler

namespace TaskScheduler

/-- C9: `update_task` on an existing task always creates and starts a live
timer immediately — it consults neither the scheduler's `running` flag nor
the task's `cancelled` flag; in particular, after an `update_task` issued
while the scheduler is stopped (and the task not cancelled), the armed
timer's expiry executes the task's action once (`last_run` is written) and,
the scheduler not running, arms no further timer — all without any
`start_scheduler` call. -/
theorem update_task_starts_live_timer_even_when_stopped
    (s : Sched) (tid : Nat) (t : Task) (now i seconds : Int) (u : String)
    (hl : s.tasks.lookup tid = some t)
    (hconv : _convert_to_seconds i u = .ok seconds) :
    ∃ s', update_task s tid now i u = .ok s' ∧
      s'.running = s.running ∧
      s'.tasks.lookup tid = some { t with interval := seconds, unit := u,
                                           next_run := now + seconds,
                                           timer := some ⟨seconds, true, false, false⟩ } ∧
      timerAlive (some (⟨seconds, true, false, false⟩ : Timer)) = true ∧
      (s.running = false → t.cancelled = false →
        ∀ t1 t2 oc nex,
          opFires s' (.opFire tid t1 t2 oc nex) tid = true ∧
          ∃ t'', (timerExpiry s' tid t1 t2 oc nex).tasks.lookup tid = some t'' ∧
            t''.last_run = some t1 ∧ timerAlive t''.timer = false) := by
  have hupd : update_task s tid now i u = .ok { s with tasks := setTask s.tasks tid { t with interval := seconds, unit := u, next_run := now + seconds, timer := some ⟨seconds, true, false, false⟩ } } := by
    unfold update_task
    rw [hconv, hl]
  refine ⟨_, hupd, rfl, ?_, rfl, ?_⟩
  · rw [lookup_setTask]
    simp
  · intro hrun hcanc t1 t2 oc nex
    constructor
    · simp [opFires, lookup_setTask, hcanc, timerAlive]
    · unfold timerExpiry fireTimer
      rw [lookup_setTask]
      simp only [if_pos rfl]
      simp only [timerAlive, hcanc]
      unfold _run_task
      simp only [lookup_setTask, setTask_setTask, if_pos rfl]
      cases oc with
      | ok v =>
        cases hcfg : s.notification_config with
        | none =>
          simp [hcanc, hrun, lookup_setTask, setTask_setTask, timerAlive]
        | some cfg =>
          cases nex with
          | none => simp [hcanc, hrun, lookup_setTask, setTask_setTask, timerAlive]
          | some e => simp [hcanc, hrun, lookup_setTask, setTask_setTask, timerAlive]
      | err e =>
        simp [hcanc, hrun, lookup_setTask, setTask_setTask, timerAlive]

/-- The sample scheduler after `stop_scheduler`. -/
def sampleStopped : Sched := stop_scheduler sampleSched

/-- The record of task 0 in `sampleStopped`: timer cancelled by the stop. -/
def sampleTaskStopped : Task :=
  { sampleTask with timer := cancelTimer sampleTask.timer }

/-- Witness for C9 at a concrete input: a stopped scheduler with one task,
updated to a 5-second interval, then the armed timer expires. -/
theorem update_task_starts_live_timer_even_when_stopped_witness :
    sampleStopped.tasks.lookup 0 = some sampleTaskStopped ∧
    _convert_to_seconds 5 "seconds" = .ok 5 ∧
    (∃ s', update_task sampleStopped 0 100 5 "seconds" = .ok s' ∧
      s'.running = sampleStopped.running ∧
      s'.tasks.lookup 0 = some { sampleTaskStopped with interval := 5,
                                                          unit := "seconds",
                                                          next_run := 100 + 5,
                                                          timer := some ⟨5, true, false, false⟩ } ∧
      timerAlive (some (⟨5, true, false, false⟩ : Timer)) = true ∧
      (sampleStopped.running = false → sampleTaskStopped.cancelled = false →
        ∀ t1 t2 oc nex,
          opFires s' (.opFire 0 t1 t2 oc nex) 0 = true ∧
          ∃ t'', (timerExpiry s' 0 t1 t2 oc nex).tasks.lookup 0 = some t'' ∧
            t''.last_run = some t1 ∧ timerAlive t''.timer = false)) :=
  ⟨by decide, by decide,
    update_task_starts_live_timer_even_when_stopped sampleStopped 0
      sampleTaskStopped 100 5 5 "seconds" (by decide) (by decide)⟩

end TaskScheduler

/-! ## Invariant machinery for the cancellation claim -/

namespace TaskScheduler

theorem freshOk_iff {s : Sched} :
    freshOk s = true ↔ ∀ p ∈ s.tasks, p.1 < s.nextId := by
  simp [freshOk]

theorem lookup_lt_nextId {s : Sched} {tid : Nat} {t : Task}
    (hf : freshOk s = true) (hl : s.tasks.lookup tid = some t) :
    tid < s.nextId :=
  freshOk_iff.mp hf (tid, t) (mem_of_lookup_eq_some hl)

theorem cancelledState_iff {s : Sched} {tid : Nat} :
    cancelledState s tid = true ↔
      ∃ t, s.tasks.lookup tid = some t ∧ t.cancelled = true ∧
        t.status = "cancelled" := by
  unfold cancelledState
  cases h : s.tasks.lookup tid <;> simp

theorem freshOk_setTask {s : Sched} {k : Nat} {v : Task}
    (hf : freshOk s = true) (hk : k < s.nextId) :
    freshOk { s with tasks := setTask s.tasks k v } = true := by
  rw [freshOk_iff] at hf ⊢
  intro p hp
  rcases mem_setTask hp with h | h
  · exact hf p h
  · simpa [h] using hk

theorem freshOk_run_task (s : Sched) (tid : Nat) (t1 t2 : Int)
    (oc : ActionOutcome) (nex : Option String) (hf : freshOk s = true) :
    freshOk (_run_task s tid t1 t2 oc nex) = true := by
  unfold _run_task
  cases hl : s.tasks.lookup tid with
  | none => exact hf
  | some t =>
    by_cases hc : t.cancelled
    · simpa [hc] using hf
    · simp only [hc, if_false, Bool.false_eq_true]
      exact freshOk_setTask hf (lookup_lt_nextId hf hl)

theorem freshOk_mapSnd (s : Sched) (f : Task → Task) (hf : freshOk s = true) :
    freshOk { s with tasks := s.tasks.map fun p => (p.1, f p.2) } = true := by
  rw [freshOk_iff] at hf ⊢
  intro p hp
  rcases List.mem_map.mp hp with ⟨q, hq, rfl⟩
  exact hf q hq

theorem freshOk_applyOp (s : Sched) (op : Op) (hf : freshOk s = true) :
    freshOk (applyOp s op) = true := by
  cases op with
  | opSchedule now i u =>
    simp only [applyOp]
    unfold schedule_task
    cases hc : _convert_to_seconds i u with
    | error e => exact hf
    | ok seconds =>
      rw [freshOk_iff]
      intro p hp
      simp only at hp
      rcases mem_setTask hp with h | h
      · exact Nat.lt_succ_of_lt (freshOk_iff.mp hf p h)
      · simp [h, Nat.lt_succ_self]
  | opCancel tid =>
    simp only [applyOp]
    unfold cancel_task
    cases hl : s.tasks.lookup tid with
    | none => exact hf
    | some t => exact freshOk_setTask hf (lookup_lt_nextId hf hl)
  | opUpdate tid now i u =>
    simp only [applyOp]
    unfold update_task
    cases hc : _convert_to_seconds i u with
    | error e => exact hf
    | ok seconds =>
      cases hl : s.tasks.lookup tid with
      | none => exact hf
      | some t => exact freshOk_setTask hf (lookup_lt_nextId hf hl)
  | opRunNow tid t1 t2 oc nex =>
    simp only [applyOp]
    unfold run_now
    cases hl : s.tasks.lookup tid with
    | none => exact hf
    | some t =>
      by_cases hc : t.cancelled
      · simpa [hc] using hf
      · simp only [hc, if_false, Bool.false_eq_true]
        exact freshOk_run_task _ tid t1 t2 oc nex
          (freshOk_setTask hf (lookup_lt_nextId hf hl))
  | opFire tid t1 t2 oc nex =>
    simp only [applyOp]
    unfold timerExpiry
    cases hl : s.tasks.lookup tid with
    | none => exact hf
    | some t =>
      by_cases ha : timerAlive t.timer
      · simp only [ha, if_true]
        refine freshOk_run_task _ tid t1 t2 oc nex ?_
        unfold fireTimer
        rw [hl]
        exact freshOk_setTask hf (lookup_lt_nextId hf hl)
      · simpa [ha] using hf
  | opStart now =>
    simp only [applyOp]
    unfold start_scheduler
    by_cases hr : s.running
    · simpa [hr] using hf
    · simp only [hr, if_false, Bool.false_eq_true]
      have := freshOk_mapSnd s (startTask now) hf
      simpa using this
  | opStop =>
    simp only [applyOp]
    unfold stop_scheduler
    have := freshOk_mapSnd s stopTask hf
    simpa using this
  | opConfigure r c =>
    simp only [applyOp]
    unfold configure_notifications
    simpa using hf

end TaskScheduler

namespace TaskScheduler

theorem cancelledState_eq_of_lookup {s s' : Sched} {tid : Nat}
    (h : s'.tasks.lookup tid = s.tasks.lookup tid) :
    cancelledState s' tid = cancelledState s tid := by
  unfold cancelledState
  rw [h]

theorem lookup_run_task_ne (s : Sched) {tid tid' : Nat} (h : tid ≠ tid')
    (t1 t2 : Int) (oc : ActionOutcome) (nex : Option String) :
    (_run_task s tid' t1 t2 oc nex).tasks.lookup tid = s.tasks.lookup tid := by
  unfold _run_task
  cases hl : s.tasks.lookup tid' with
  | none => rfl
  | some t =>
    by_cases hc : t.cancelled
    · simp [hc]
    · simp only [hc, if_false, Bool.false_eq_true]
      show (setTask s.tasks tid' _).lookup tid = s.tasks.lookup tid
      rw [lookup_setTask]
      simp [h]

theorem run_task_cancelled {s : Sched} {tid : Nat} {t : Task}
    (hl : s.tasks.lookup tid = some t) (hc : t.cancelled = true)
    (t1 t2 : Int) (oc : ActionOutcome) (nex : Option String) :
    _run_task s tid t1 t2 oc nex = s := by
  unfold _run_task
  rw [hl]
  simp [hc]

theorem fireTimer_eq {s : Sched} {tid : Nat} {t : Task}
    (hl : s.tasks.lookup tid = some t) :
    fireTimer s tid = { s with tasks := setTask s.tasks tid { t with timer := t.timer.map fun tm => { tm with fired := true } } } := by
  unfold fireTimer
  rw [hl]

theorem cancelled_step (s : Sched) (tid : Nat) (op : Op)
    (hf : freshOk s = true) (hc : cancelledState s tid = true) :
    cancelledState (applyOp s op) tid = true ∧ opFires s op tid = false := by
  obtain ⟨t, hl, hcanc, hstat⟩ := cancelledState_iff.mp hc
  cases op with
  | opSchedule now i u =>
    refine ⟨?_, rfl⟩
    simp only [applyOp]
    unfold schedule_task
    cases hcv : _convert_to_seconds i u with
    | error e => exact hc
    | ok seconds =>
      have hne : tid ≠ s.nextId := Nat.ne_of_lt (lookup_lt_nextId hf hl)
      rw [cancelledState_iff]
      refine ⟨t, ?_, hcanc, hstat⟩
      show (setTask s.tasks s.nextId _).lookup tid = some t
      rw [lookup_setTask]
      simp [hne, hl]
  | opCancel tid' =>
    refine ⟨?_, rfl⟩
    simp only [applyOp]
    unfold cancel_task
    by_cases he : tid' = tid
    · subst he
      rw [hl]
      rw [cancelledState_iff]
      refine ⟨{ t with cancelled := true, timer := cancelTimer t.timer, status := "cancelled" }, ?_, rfl, rfl⟩
      show (setTask s.tasks tid' _).lookup tid' = some _
      rw [lookup_setTask]
      simp
    · have hne : tid ≠ tid' := fun hh => he hh.symm
      cases hl' : s.tasks.lookup tid' with
      | none => exact hc
      | some t2 =>
        rw [cancelledState_iff]
        refine ⟨t, ?_, hcanc, hstat⟩
        show (setTask s.tasks tid' _).lookup tid = some t
        rw [lookup_setTask]
        simp [hne, hl]
  | opUpdate tid' now i u =>
    refine ⟨?_, rfl⟩
    simp only [applyOp]
    unfold update_task
    cases hcv : _convert_to_seconds i u with
    | error e => exact hc
    | ok seconds =>
      by_cases he : tid' = tid
      · subst he
        rw [hl]
        rw [cancelledState_iff]
        refine ⟨{ t with interval := seconds, unit := u, next_run := now + seconds, timer := some ⟨seconds, true, false, false⟩ }, ?_, hcanc, hstat⟩
        show (setTask s.tasks tid' _).lookup tid' = some _
        rw [lookup_setTask]
        simp
      · have hne : tid ≠ tid' := fun hh => he hh.symm
        cases hl' : s.tasks.lookup tid' with
        | none => exact hc
        | some t2 =>
          rw [cancelledState_iff]
          refine ⟨t, ?_, hcanc, hstat⟩
          show (setTask s.tasks tid' _).lookup tid = some t
          rw [lookup_setTask]
          simp [hne, hl]
  | opRunNow tid' t1 t2 oc nex =>
    by_cases he : tid' = tid
    · subst he
      have hrn : run_now s tid' = (s, false) := by
        unfold run_now
        rw [hl]
        simp [hcanc]
      constructor
      · simp only [applyOp, hrn]
        simpa using hc
      · simp [opFires, firesAction, hl, hcanc]
    · have hne : tid ≠ tid' := fun hh => he hh.symm
      constructor
      · simp only [applyOp]
        cases hl' : s.tasks.lookup tid' with
        | none =>
          have hrn : run_now s tid' = (s, false) := by
            unfold run_now
            rw [hl']
          simp only [hrn]
          simpa using hc
        | some tb =>
          by_cases hc2 : tb.cancelled
          · have hrn : run_now s tid' = (s, false) := by
              unfold run_now
              rw [hl']
              simp [hc2]
            simp only [hrn]
            simpa using hc
          · have hrn : run_now s tid' = ({ s with tasks := setTask s.tasks tid' { tb with timer := cancelTimer tb.timer } }, true) := by
              unfold run_now
              rw [hl']
              simp [hc2]
            rw [hrn]
            show cancelledState (_run_task { s with tasks := setTask s.tasks tid' { tb with timer := cancelTimer tb.timer } } tid' t1 t2 oc nex) tid = true
            rw [cancelledState_iff]
            refine ⟨t, ?_, hcanc, hstat⟩
            rw [lookup_run_task_ne _ hne]
            show (setTask s.tasks tid' _).lookup tid = some t
            rw [lookup_setTask]
            simp [hne, hl]
      · simp [opFires, he]
  | opFire tid' t1 t2 oc nex =>
    by_cases he : tid' = tid
    · subst he
      constructor
      · simp only [applyOp]
        unfold timerExpiry
        rw [hl]
        by_cases ha : timerAlive t.timer
        · simp only [ha, if_true]
          have hft := fireTimer_eq hl
          have hlf : (fireTimer s tid').tasks.lookup tid' =
              some { t with timer := t.timer.map fun tm => { tm with fired := true } } := by
            rw [hft]
            show (setTask s.tasks tid' _).lookup tid' = some _
            rw [lookup_setTask]
            simp
          rw [run_task_cancelled hlf hcanc]
          rw [cancelledState_iff]
          exact ⟨_, hlf, hcanc, hstat⟩
        · simp only [ha, if_false, Bool.false_eq_true]
          exact hc
      · simp [opFires, hl, hcanc]
    · have hne : tid ≠ tid' := fun hh => he hh.symm
      constructor
      · simp only [applyOp]
        unfold timerExpiry
        cases hl' : s.tasks.lookup tid' with
        | none => exact hc
        | some t2 =>
          by_cases ha : timerAlive t2.timer
          · simp only [ha, if_true]
            rw [cancelledState_iff]
            refine ⟨t, ?_, hcanc, hstat⟩
            rw [lookup_run_task_ne _ hne]
            rw [fireTimer_eq hl']
            show (setTask s.tasks tid' _).lookup tid = some t
            rw [lookup_setTask]
            simp [hne, hl]
          · simp only [ha, if_false, Bool.false_eq_true]
            exact hc
      · simp [opFires, he]
  | opStart now =>
    refine ⟨?_, rfl⟩
    simp only [applyOp]
    unfold start_scheduler
    by_cases hr : s.running
    · simp only [hr, if_true]
      exact hc
    · simp only [hr, if_false, Bool.false_eq_true]
      rw [cancelledState_iff]
      refine ⟨startTask now t, ?_, ?_, ?_⟩
      · show (s.tasks.map fun p => (p.1, startTask now p.2)).lookup tid = _
        rw [lookup_mapSnd, hl]
        rfl
      · simp [startTask, hcanc]
      · simp [startTask, hcanc, hstat]
  | opStop =>
    refine ⟨?_, rfl⟩
    simp only [applyOp]
    unfold stop_scheduler
    rw [cancelledState_iff]
    refine ⟨stopTask t, ?_, ?_, ?_⟩
    · show (s.tasks.map fun p => (p.1, stopTask p.2)).lookup tid = _
      rw [lookup_mapSnd, hl]
      rfl
    · simp [stopTask, hcanc]
    · simp [stopTask, hstat]
  | opConfigure r c =>
    refine ⟨?_, rfl⟩
    simp only [applyOp]
    unfold configure_notifications
    rw [cancelledState_iff]
    exact ⟨t, hl, hcanc, hstat⟩

end TaskScheduler

namespace TaskScheduler

theorem cancelled_permanent_aux (ops : List Op) (s : Sched) (tid : Nat)
    (hf : freshOk s = true) (hc : cancelledState s tid = true) :
    cancelledState (applyOps s ops) tid = true ∧ noFire s tid ops = true := by
  induction ops generalizing s with
  | nil => exact ⟨hc, rfl⟩
  | cons op rest ih =>
    obtain ⟨h1, h2⟩ := cancelled_step s tid op hf hc
    have hf' := freshOk_applyOp s op hf
    obtain ⟨h3, h4⟩ := ih (applyOp s op) hf' h1
    refine ⟨?_, ?_⟩
    · simpa [applyOps] using h3
    · simp [noFire, h2, h4]

/-- C5: once `cancel_task` has completed on a registered task (here under the
uuid-freshness invariant `freshOk`), the task is in the cancelled state —
`cancelled = true`, `status = "cancelled"` — and stays there under every
sequence of subsequent scheduler events, and no subsequent event (timer
expiry or `run_now` included) ever executes that task's action again. -/
theorem cancelled_task_never_fires_again
    (s : Sched) (tid : Nat) (t : Task) (ops : List Op)
    (hf : freshOk s = true) (hl : s.tasks.lookup tid = some t) :
    cancelledState (cancel_task s tid) tid = true ∧
    cancelledState (applyOps (cancel_task s tid) ops) tid = true ∧
    noFire (cancel_task s tid) tid ops = true := by
  have hc0 : cancelledState (cancel_task s tid) tid = true := by
    unfold cancel_task
    rw [hl]
    rw [cancelledState_iff]
    refine ⟨{ t with cancelled := true, timer := cancelTimer t.timer, status := "cancelled" }, ?_, rfl, rfl⟩
    show (setTask s.tasks tid _).lookup tid = some _
    rw [lookup_setTask]
    simp
  have hf0 : freshOk (cancel_task s tid) = true := by
    have := freshOk_applyOp s (.opCancel tid) hf
    simpa [applyOp] using this
  obtain ⟨h1, h2⟩ := cancelled_permanent_aux ops (cancel_task s tid) tid hf0 hc0
  exact ⟨hc0, h1, h2⟩

/-- A concrete event sequence exercising every kind of scheduler event
against the cancelled sample task. -/
def sampleOps : List Op :=
  [.opFire 0 5 5 (.ok 1) none,
   .opRunNow 0 6 6 (.ok 2) none,
   .opUpdate 0 7 10 "seconds",
   .opFire 0 8 8 (.err "x") (some "y"),
   .opStart 9,
   .opFire 0 11 11 (.ok 3) none,
   .opStop,
   .opSchedule 12 60 "seconds",
   .opConfigure "a" "b",
   .opCancel 0]

/-- Witness for C5 at a concrete input: the sample task cancelled, then the
`sampleOps` events applied. -/
theorem cancelled_task_never_fires_again_witness :
    freshOk sampleSched = true ∧
    sampleSched.tasks.lookup 0 = some sampleTask ∧
    (cancelledState (cancel_task sampleSched 0) 0 = true ∧
     cancelledState (applyOps (cancel_task sampleSched 0) sampleOps) 0 = true ∧
     noFire (cancel_task sampleSched 0) 0 sampleOps = true) :=
  ⟨by decide, by decide,
    cancelled_task_never_fires_again sampleSched 0 sampleTask sampleOps
      (by decide) (by decide)⟩

end TaskScheduler
